import Mathlib

/-!
Shallow embedding of the LAMP incremental pose-graph solver core
(`src/internal/src/laser_loop_closure/src/GenericSolver.cc`).

Modelling conventions:
* `gtsam::Key` is a 64-bit integer; `gtsam::Symbol` stores a category
  character in the top byte (`chr() = key >> 56`).  Keys are `Nat`.
* Poses and 6x6 covariances are opaque payloads to this core (the spec:
  "Factors are otherwise opaque payloads to this core beyond their endpoint
  keys and covariance"), so they are wrapped numbers the solver only moves
  around, never inspects.
* `graph_utils::poseCompose` / `poseBetween` and the external nonlinear
  optimizers are not part of the core (the spec treats them as external
  collaborators and their sources are not in the repository slice), so they
  are black-box function parameters bundled in `ExternalOps`; every theorem
  quantifies over them.
* C++ exceptions (`std::out_of_range` from `.at`, `ValuesKeyAlreadyExists`
  from `gtsam::Values::insert`) and the undefined behaviour of dereferencing
  a failed `boost::dynamic_pointer_cast` are modelled as `Except` errors
  that carry the solver state as mutated up to the throw point.
* `std::map` is an association list kept in sorted key order; `operator[]`
  inserts a default-constructed entry when the key is absent, `.at` fails
  when the key is absent.
* `ROS_WARN` / `ROS_INFO` / printing are pure logging and have no effect on
  solver state; they are omitted.
-/

/-- `gtsam::Key`: a 64-bit integer identifier. -/
abbrev Key := Nat

/-- `gtsam::Symbol::chr()`: the category character packed in the top byte of
a key (`key >> 56`, truncated to a byte). -/
def keyChr (k : Key) : Nat := k / 2 ^ 56 % 2 ^ 8

/-- The character code of the 'l' (artifact / loop-closure-only) category
tested by `symb.chr() != 'l'`. -/
def lChr : Nat := 108

/-- `gtsam::Pose3`, an opaque payload to this core. -/
structure Pose3 where
  payload : Nat
deriving DecidableEq, Repr

instance : Inhabited Pose3 := ⟨⟨0⟩⟩

/-- A 6x6 covariance matrix (`gtsam::Matrix` as used here), an opaque
payload to this core.  The solver only ever copies it out of a factor's
noise model (`inverse(R())`) and stores it. -/
structure Cov6 where
  payload : Nat
deriving DecidableEq, Repr

instance : Inhabited Cov6 := ⟨⟨0⟩⟩

/-- `graph_utils::PoseWithCovariance`: a pose plus its covariance. -/
structure PoseWithCovariance where
  pose : Pose3
  covariance_matrix : Cov6
deriving DecidableEq, Repr

instance : Inhabited PoseWithCovariance := ⟨⟨default, default⟩⟩

/-- `graph_utils::TrajectoryPose`: a key paired with a pose+covariance.
Default construction (as performed by `std::map::operator[]` on a missing
key) zero-initialises both fields. -/
structure TrajectoryPose where
  pose : PoseWithCovariance
  id : Key
deriving DecidableEq, Repr

instance : Inhabited TrajectoryPose := ⟨⟨default, 0⟩⟩

/-- The `std::map<Key, TrajectoryPose>` inside `graph_utils::Trajectory`,
as an association list kept in ascending key order. -/
abbrev TrajMap := List (Key × TrajectoryPose)

/-- `std::map::find` / read access without insertion. -/
def mapFind : TrajMap → Key → Option TrajectoryPose
  | [], _ => none
  | (k', v) :: rest, k => if k = k' then some v else mapFind rest k

/-- `std::map` insert-or-assign at the sorted position (the effect of
`m[k] = v` when writing a whole entry). -/
def mapInsert : TrajMap → Key → TrajectoryPose → TrajMap
  | [], k, v => [(k, v)]
  | (k', v') :: rest, k, v =>
    if k < k' then (k, v) :: (k', v') :: rest
    else if k = k' then (k, v) :: rest
    else (k', v') :: mapInsert rest k v

/-- `std::map::operator[]` used for reading: returns the entry at `k`,
default-constructing and inserting it first when absent. -/
def mapRead (m : TrajMap) (k : Key) : TrajectoryPose × TrajMap :=
  match mapFind m k with
  | some v => (v, m)
  | none => (default, mapInsert m k default)

/-- The write `m[k].pose = p`: `operator[]` default-constructs the entry
when absent (leaving its `id` field default), then only the `pose` field is
assigned. -/
def mapSetPose (m : TrajMap) (k : Key) (p : PoseWithCovariance) : TrajMap :=
  match mapFind m k with
  | some v => mapInsert m k { v with pose := p }
  | none => mapInsert m k { (default : TrajectoryPose) with pose := p }

/-- `graph_utils::Trajectory`: the odometry-only trajectory with cached
start and end keys. -/
structure Trajectory where
  trajectory_poses : TrajMap
  start_id : Key
  end_id : Key
deriving DecidableEq, Repr

/-- A factor as this core distinguishes them by `dynamic_pointer_cast`:
a `BetweenFactor<Pose3>` (endpoint keys, measured relative pose, covariance
taken from the noise model), a `PriorFactor<Pose3>` (key, prior pose,
covariance), or any other factor type (opaque, holding only its keys). -/
inductive Factor where
  | between (front back : Key) (measured : Pose3) (covariance : Cov6)
  | priorF (key : Key) (priorPose : Pose3) (covariance : Cov6)
  | other (keys : List Key)
deriving DecidableEq, Repr

/-- `gtsam::NonlinearFactorGraph`: an ordered sequence of factor slots; a
slot holds `none` after `nfg_[i].reset()` (a null shared pointer). -/
abbrev NonlinearFactorGraph := List (Option Factor)

/-- `gtsam::Values`: key-to-pose estimates, in insertion order. -/
abbrev Values := List (Key × Pose3)

/-- `gtsam::FactorIndices`: slot indices to remove. -/
abbrev FactorIndices := List Nat

/-- The black-box external collaborators: `graph_utils::poseCompose`,
`graph_utils::poseBetween` (relative-pose computation with covariance
propagation; their sources are outside this repository slice) and the two
external nonlinear optimizers ("minimize total error given graph + initial
values", consumed opaquely). -/
structure ExternalOps where
  poseCompose : PoseWithCovariance → PoseWithCovariance → PoseWithCovariance
  poseBetween : PoseWithCovariance → PoseWithCovariance → PoseWithCovariance
  optimizeLM : NonlinearFactorGraph → Values → Values
  optimizeGN : NonlinearFactorGraph → Values → Values

/-- The mutable state of a `GenericSolver` object. -/
structure GenericSolver where
  nfg_ : NonlinearFactorGraph
  values_ : Values
  solver_type_ : Int
  nfg_odom_ : NonlinearFactorGraph
  nfg_lc_ : NonlinearFactorGraph
  posesAndCovariances_odom_ : Trajectory
deriving DecidableEq, Repr

/-- The `GenericSolver(int solvertype)` constructor: everything empty.
(The `Trajectory` members are of built-in integer type and carry no
meaningful value before initialization; `0` stands for that.) -/
def GenericSolver.init (solvertype : Int) : GenericSolver :=
  { nfg_ := []
    values_ := []
    solver_type_ := solvertype
    nfg_odom_ := []
    nfg_lc_ := []
    posesAndCovariances_odom_ := { trajectory_poses := [], start_id := 0, end_id := 0 } }

/-- An abnormal exit escaping a solver method: a thrown C++ exception or a
crash from dereferencing a null pointer. -/
inductive SolverError where
  | brokenTrajectory
  | badCast
  | outOfRange
  | keyExists
deriving DecidableEq, Repr

/-- The removal loop of `GenericSolver::regularUpdate`:
`for (size_t index : factorsToRemove) nfg_[index].reset();`.
`operator[]` is `at`, which throws `std::out_of_range` for an invalid slot
index; on a valid index the slot's shared pointer is reset to null in
place.  On error the partially-updated graph is returned. -/
def removeFactors : NonlinearFactorGraph → FactorIndices →
    Except (SolverError × NonlinearFactorGraph) NonlinearFactorGraph
  | g, [] => .ok g
  | g, i :: rest =>
    if i < g.length then removeFactors (g.set i none) rest
    else .error (.outOfRange, g)

/-- `gtsam::Values::insert(const Values&)`: inserts pair by pair, throwing
`ValuesKeyAlreadyExists` at the first key already present (earlier pairs
stay inserted). -/
def valuesInsert : Values → Values →
    Except (SolverError × Values) Values
  | vs, [] => .ok vs
  | vs, (k, p) :: rest =>
    match vs.lookup k with
    | some _ => .error (.keyExists, vs)
    | none => valuesInsert (vs ++ [(k, p)]) rest

/-- `gtsam::Values::insert(Key, Pose3)`: throws when the key is present. -/
def valuesInsertOne (vs : Values) (k : Key) (p : Pose3) :
    Except SolverError Values :=
  match vs.lookup k with
  | some _ => .error .keyExists
  | none => .ok (vs ++ [(k, p)])

/-- The optimizer gate of `GenericSolver::regularUpdate`: `do_optimize`
starts `true`; a one-factor one-value update whose value key is not in the
'l' category clears it; an empty update clears it; any removal request
forces it back on. -/
def doOptimize (nfg : NonlinearFactorGraph) (values : Values)
    (factorsToRemove : FactorIndices) : Bool :=
  let d1 : Bool := true
  let d2 : Bool :=
    if nfg.length = 1 ∧ values.length = 1 then
      match values.head? with
      | some (k, _) => if keyChr k ≠ lChr then false else d1
      | none => d1
    else d1
  let d3 : Bool := if nfg.length = 0 ∧ values.length = 0 then false else d2
  if factorsToRemove.length > 0 then true else d3

/-- `GenericSolver::regularUpdate`: remove the requested slots, append the
new factors and values, then run the configured optimizer if the gate says
so (solver type 1 = Levenberg-Marquardt, 2 = Gauss-Newton, anything else
does nothing). -/
def regularUpdate (ops : ExternalOps) (s : GenericSolver)
    (nfg : NonlinearFactorGraph) (values : Values)
    (factorsToRemove : FactorIndices) :
    Except (SolverError × GenericSolver) GenericSolver :=
  match removeFactors s.nfg_ factorsToRemove with
  | .error (e, g') => .error (e, { s with nfg_ := g' })
  | .ok g' =>
    let s1 := { s with nfg_ := g' ++ nfg }
    match valuesInsert s1.values_ values with
    | .error (e, v') => .error (e, { s1 with values_ := v' })
    | .ok v' =>
      let s2 := { s1 with values_ := v' }
      if doOptimize nfg values factorsToRemove then
        if s2.solver_type_ = 1 then
          .ok { s2 with values_ := ops.optimizeLM s2.nfg_ s2.values_ }
        else if s2.solver_type_ = 2 then
          .ok { s2 with values_ := ops.optimizeGN s2.nfg_ s2.values_ }
        else .ok s2
      else .ok s2

/-- `GenericSolver::initializePrior`: store the prior's pose and covariance
at the prior's key (`trajectory_poses[initial_key].pose = initial_pose`,
which default-constructs the entry and assigns only its `pose` field) and
set `start_id = end_id = initial_key`. -/
def initializePrior (s : GenericSolver) (initial_key : Key)
    (initial_value : Pose3) (covar : Cov6) : GenericSolver :=
  let initial_pose : PoseWithCovariance :=
    { pose := initial_value, covariance_matrix := covar }
  { s with posesAndCovariances_odom_ :=
      { trajectory_poses :=
          mapSetPose s.posesAndCovariances_odom_.trajectory_poses
            initial_key initial_pose
        start_id := initial_key
        end_id := initial_key } }

/-- `GenericSolver::updateOdom`: look up the trajectory pose at the current
end key with `.at` (throws `std::out_of_range` when absent, modelled as
`brokenTrajectory`; nothing was mutated yet at that point), compose it with
the odometry delta, then set `end_id` to the factor's back key and insert
the composed pose there.  Returns the new state and composed pose. -/
def updateOdom (ops : ExternalOps) (s : GenericSolver)
    (delta : Pose3) (covar : Cov6) (new_key : Key) :
    Except (SolverError × GenericSolver) (GenericSolver × PoseWithCovariance) :=
  let odom_delta : PoseWithCovariance :=
    { pose := delta, covariance_matrix := covar }
  let latest_key := s.posesAndCovariances_odom_.end_id
  match mapFind s.posesAndCovariances_odom_.trajectory_poses latest_key with
  | none => .error (.brokenTrajectory, s)
  | some last_trajpose =>
    let last_pose := last_trajpose.pose
    let new_pose := ops.poseCompose last_pose odom_delta
    let new_trajectorypose : TrajectoryPose := { pose := new_pose, id := new_key }
    let traj := s.posesAndCovariances_odom_
    let traj' :=
      { traj with
        end_id := new_key
        trajectory_poses := mapInsert traj.trajectory_poses new_key new_trajectorypose }
    .ok ({ s with posesAndCovariances_odom_ := traj' }, new_pose)

/-- `GenericSolver::isOdomConsistent`: read the trajectory entries at the
loop factor's two endpoint keys with `std::map::operator[]` (inserting a
default-constructed entry for any absent key), compute the odometry-implied
relative pose, the factor's measured relative pose and their discrepancy —
and then `return true; // place holder`: the threshold check is absent.
Returns the flag together with the (possibly grown) state. -/
def isOdomConsistent (ops : ExternalOps) (s : GenericSolver)
    (key_i key_j : Key) (measured : Pose3) (covar : Cov6) :
    Bool × GenericSolver :=
  let traj := s.posesAndCovariances_odom_
  let (tp_i, m1) := mapRead traj.trajectory_poses key_i
  let (tp_j, m2) := mapRead m1 key_j
  let pi_odom := tp_i.pose
  let pj_odom := tp_j.pose
  let pij_odom := ops.poseBetween pi_odom pj_odom
  let pij_lc : PoseWithCovariance := { pose := measured, covariance_matrix := covar }
  let result := ops.poseBetween pij_odom pij_lc
  let consistency_error := result.pose
  let s' := { s with posesAndCovariances_odom_ := { traj with trajectory_poses := m2 } }
  (true, s')

/-- `GenericSolver::findInliers`: the pairwise consistency check and the
max-clique computation exist only as comments; the body is
`inliers = nfg_lc_;` — every stored loop closure is returned. -/
def findInliers (s : GenericSolver) : NonlinearFactorGraph := s.nfg_lc_

/-- `GenericSolver::update`, the sole mutation entry point.  Classification
mirrors the source: a (1 factor, 1 value) update whose value key is not in
the 'l' category is an odometry step when the factor casts to
`BetweenFactor<Pose3>`; otherwise, when the trajectory is empty, the factor
is cast to `PriorFactor<Pose3>` and dereferenced unconditionally (a failed
cast is a null dereference, modelled as `badCast`), initializing the
trajectory before falling through to `regularUpdate`.  A (1 factor,
0 values) update is a loop-closure candidate: the factor is cast to
`BetweenFactor<Pose3>` and dereferenced (again `badCast` on failure), run
through `isOdomConsistent`, appended to `nfg_lc_` on success, after which
the combined graph is rebuilt from scratch as odometry factors plus
`findInliers` output and Levenberg-Marquardt is invoked unconditionally.
Everything else goes to `regularUpdate`. -/
def update (ops : ExternalOps) (s : GenericSolver)
    (nfg : NonlinearFactorGraph) (values : Values)
    (factorsToRemove : FactorIndices) :
    Except (SolverError × GenericSolver) GenericSolver :=
  match nfg, values with
  | [f0], [(k, _)] =>
    if keyChr k ≠ lChr then
      match f0 with
      | some (.between _ back measured covar) =>
        match updateOdom ops s measured covar back with
        | .error es => .error es
        | .ok (s1, new_pose) =>
          let s2 := { s1 with nfg_odom_ := s1.nfg_odom_ ++ nfg }
          match valuesInsertOne s2.values_ k new_pose.pose with
          | .error e => .error (e, s2)
          | .ok v' => .ok { s2 with values_ := v' }
      | some (.priorF pk pp pc) =>
        if s.posesAndCovariances_odom_.trajectory_poses.length = 0 then
          regularUpdate ops (initializePrior s pk pp pc) nfg values factorsToRemove
        else
          regularUpdate ops s nfg values factorsToRemove
      | _ =>
        if s.posesAndCovariances_odom_.trajectory_poses.length = 0 then
          .error (.badCast, s)
        else
          regularUpdate ops s nfg values factorsToRemove
    else regularUpdate ops s nfg values factorsToRemove
  | [f0], [] =>
    match f0 with
    | some (.between front back measured covar) =>
      let checked := isOdomConsistent ops s front back measured covar
      if checked.1 then
        let s1 := checked.2
        let s2 := { s1 with nfg_lc_ := s1.nfg_lc_ ++ nfg }
        let nfg_good_lc := findInliers s2
        let combined : NonlinearFactorGraph := [] ++ s2.nfg_odom_ ++ nfg_good_lc
        .ok { s2 with nfg_ := combined, values_ := ops.optimizeLM combined s2.values_ }
      else .ok checked.2
    | _ => .error (.badCast, s)
  | _, _ => regularUpdate ops s nfg values factorsToRemove

/-! ### Helper lemmas about the map model -/

theorem mapFind_mapInsert_self (m : TrajMap) (k : Key) (v : TrajectoryPose) :
    mapFind (mapInsert m k v) k = some v := by
  induction m with
  | nil => simp [mapInsert, mapFind]
  | cons hd tl ih =>
    obtain ⟨k', v'⟩ := hd
    by_cases h1 : k < k'
    · simp [mapInsert, mapFind, h1]
    · by_cases h2 : k = k'
      · simp [mapInsert, mapFind, h1, h2]
      · simp [mapInsert, mapFind, h1, h2, ih]

theorem mapFind_mapInsert_ne (m : TrajMap) (k k' : Key) (v : TrajectoryPose)
    (h : k ≠ k') : mapFind (mapInsert m k' v) k = mapFind m k := by
  induction m with
  | nil => simp [mapInsert, mapFind, h]
  | cons hd tl ih =>
    obtain ⟨k0, v0⟩ := hd
    by_cases h1 : k' < k0
    · simp [mapInsert, mapFind, h1, h]
    · by_cases h2 : k' = k0
      · subst h2
        simp [mapInsert, mapFind, h1, h]
      · by_cases h3 : k = k0 <;> simp [mapInsert, mapFind, h1, h2, h3, ih]

theorem length_mapInsert_of_absent (m : TrajMap) (k : Key) (v : TrajectoryPose)
    (h : mapFind m k = none) : (mapInsert m k v).length = m.length + 1 := by
  induction m with
  | nil => simp [mapInsert]
  | cons hd tl ih =>
    obtain ⟨k0, v0⟩ := hd
    by_cases h1 : k < k0
    · simp [mapInsert, h1]
    · by_cases h2 : k = k0
      · simp [mapFind, h2] at h
      · simp only [mapFind, h2, if_neg] at h
        simp [mapInsert, h1, h2, ih h]

theorem mapInsert_concat_of_forall_lt (m : TrajMap) (k : Key) (v : TrajectoryPose)
    (h : ∀ k' ∈ m.map Prod.fst, k' < k) : mapInsert m k v = m ++ [(k, v)] := by
  induction m with
  | nil => simp [mapInsert]
  | cons hd tl ih =>
    obtain ⟨k0, v0⟩ := hd
    have hk0 : k0 < k := h k0 (by simp)
    have h1 : ¬ k < k0 := Nat.lt_asymm hk0
    have h2 : ¬ k = k0 := fun he => absurd hk0 (by simp [he])
    simp only [mapInsert, if_neg h1, if_neg h2, List.cons_append, List.cons.injEq, true_and]
    exact ih fun k' hk' => h k' (by simp [hk'])

/-! ### Characterization of `isOdomConsistent` -/

theorem isOdomConsistent_fst (ops : ExternalOps) (s : GenericSolver)
    (key_i key_j : Key) (measured : Pose3) (covar : Cov6) :
    (isOdomConsistent ops s key_i key_j measured covar).1 = true := by
  unfold isOdomConsistent
  rcases h1 : mapRead s.posesAndCovariances_odom_.trajectory_poses key_i with ⟨tpi, m1⟩
  rcases h2 : mapRead m1 key_j with ⟨tpj, m2⟩
  simp [h1, h2]

theorem isOdomConsistent_snd (ops : ExternalOps) (s : GenericSolver)
    (key_i key_j : Key) (measured : Pose3) (covar : Cov6) :
    (isOdomConsistent ops s key_i key_j measured covar).2 =
      { s with posesAndCovariances_odom_ :=
          { s.posesAndCovariances_odom_ with
            trajectory_poses :=
              (mapRead (mapRead s.posesAndCovariances_odom_.trajectory_poses key_i).2 key_j).2 } } := by
  unfold isOdomConsistent
  rcases h1 : mapRead s.posesAndCovariances_odom_.trajectory_poses key_i with ⟨tpi, m1⟩
  rcases h2 : mapRead m1 key_j with ⟨tpj, m2⟩
  simp [h1, h2]

/-- Reduction of the loop-closure branch of `update`: a single
`BetweenFactor<Pose3>` with no new values is always accepted (the
consistency check is a placeholder returning `true`), appended to
`nfg_lc_`, and the combined graph is rebuilt as the odometry factors
followed by the output of `findInliers`, after which Levenberg-Marquardt
replaces `values_`. -/
theorem update_lc_branch (ops : ExternalOps) (s : GenericSolver)
    (front back : Key) (measured : Pose3) (covar : Cov6) (rem : FactorIndices) :
    update ops s [some (.between front back measured covar)] [] rem =
      (let s1 := (isOdomConsistent ops s front back measured covar).2
       let s2 := { s1 with nfg_lc_ := s1.nfg_lc_ ++ [some (.between front back measured covar)] }
       let combined := s2.nfg_odom_ ++ findInliers s2
       .ok { s2 with nfg_ := combined, values_ := ops.optimizeLM combined s2.values_ }) := by
  simp only [update, isOdomConsistent_fst, if_true, List.nil_append]

/-- The black-box collaborators instantiated trivially, for concrete
witness computations (no theorem depends on this choice). -/
def blackBoxOps : ExternalOps :=
  { poseCompose := fun a _ => a
    poseBetween := fun a _ => a
    optimizeLM := fun _ v => v
    optimizeGN := fun _ v => v }

/-! ### Claims about the loop-closure path -/

/-- C1: the claim says a loop-closure candidate is accepted iff its
Mahalanobis discrepancy against the odometry-implied relative pose is below
the chi-squared threshold, and that a closure deviating by more than 10
standard deviations is never accepted.  The code has no such gate:
`isOdomConsistent` ends in `return true; // place holder`, so every
candidate — whatever its measured pose and covariance, hence however many
standard deviations it deviates — is appended to the accepted set
`nfg_lc_`. -/
theorem C1_every_loop_closure_accepted (ops : ExternalOps) (s : GenericSolver)
    (front back : Key) (measured : Pose3) (covar : Cov6) (rem : FactorIndices) :
    ∃ s', update ops s [some (.between front back measured covar)] [] rem = .ok s' ∧
      s'.nfg_lc_ = s.nfg_lc_ ++ [some (.between front back measured covar)] := by
  refine ⟨_, update_lc_branch ops s front back measured covar rem, ?_⟩
  simp [isOdomConsistent_snd]

/-- C2: the claim says the loop-closure subgraph passed to the optimizer is
exactly a maximum clique of the pairwise-consistency graph, with a
lowest-residual tie break.  The code computes no pairwise-consistency graph
and no clique: `findInliers` returns all of `nfg_lc_`, so the subgraph
handed to the optimizer is every stored loop closure, mutually consistent
or not. -/
theorem C2_inlier_subgraph_is_all_stored (ops : ExternalOps) (s : GenericSolver)
    (front back : Key) (measured : Pose3) (covar : Cov6) (rem : FactorIndices) :
    ∃ s', update ops s [some (.between front back measured covar)] [] rem = .ok s' ∧
      findInliers s' = s.nfg_lc_ ++ [some (.between front back measured covar)] ∧
      s'.nfg_ = s.nfg_odom_ ++ findInliers s' := by
  refine ⟨_, update_lc_branch ops s front back measured covar rem, ?_, ?_⟩ <;>
    simp [findInliers, isOdomConsistent_snd]

/-- C6 (amended): on the loop-closure path the combined graph handed to the
optimizer is rebuilt from scratch as odometry factors followed by the
`findInliers` loop-closure subgraph ONLY — previously applied prior/unary
factors are dropped by the reset — with the current `values_` as initial
guess and `values_` replaced wholesale by the optimizer's output. -/
theorem C6_amended_combined_graph (ops : ExternalOps) (s : GenericSolver)
    (front back : Key) (measured : Pose3) (covar : Cov6) (rem : FactorIndices) :
    ∃ s', update ops s [some (.between front back measured covar)] [] rem = .ok s' ∧
      s'.nfg_ = s.nfg_odom_ ++ (s.nfg_lc_ ++ [some (.between front back measured covar)]) ∧
      s'.nfg_odom_ = s.nfg_odom_ ∧
      s'.nfg_lc_ = s.nfg_lc_ ++ [some (.between front back measured covar)] ∧
      s'.values_ = ops.optimizeLM s'.nfg_ s.values_ := by
  refine ⟨_, update_lc_branch ops s front back measured covar rem, ?_, ?_, ?_, ?_⟩ <;>
    simp [findInliers, isOdomConsistent_snd]

/-- C6 (counterexample): a prior factor applied through the generic path is
part of the combined graph (`s2`), yet after the next loop-closure update
rebuilds the combined graph it is gone (`s3`), contradicting "plus any
unary/prior factors previously applied". -/
theorem C6_counterexample :
    (do
      let s1 ← update blackBoxOps (GenericSolver.init 1)
        [some (.priorF 0 ⟨5⟩ ⟨2⟩)] [(0, ⟨5⟩)] []
      let s2 ← update blackBoxOps s1 [some (.between 0 1 ⟨7⟩ ⟨1⟩)] [(1, ⟨7⟩)] []
      let s3 ← update blackBoxOps s2 [some (.between 0 1 ⟨8⟩ ⟨1⟩)] [] []
      pure (decide (some (Factor.priorF 0 ⟨5⟩ ⟨2⟩) ∈ s2.nfg_),
            decide (some (Factor.priorF 0 ⟨5⟩ ⟨2⟩) ∈ s3.nfg_)) :
      Except (SolverError × GenericSolver) (Bool × Bool)) = .ok (true, false) := by
  rfl

/-- C4: an odometry extension attempted while the odometry trajectory is
empty fails (`.at` on the empty trajectory map throws, the BrokenTrajectory
case) and the solver state at the point of failure is exactly the
pre-update state: the odometry step is dropped and nothing was mutated. -/
theorem C4_broken_trajectory (ops : ExternalOps) (s : GenericSolver)
    (front back : Key) (measured : Pose3) (covar : Cov6)
    (k : Key) (p : Pose3) (rem : FactorIndices)
    (hempty : s.posesAndCovariances_odom_.trajectory_poses = [])
    (hk : keyChr k ≠ lChr) :
    update ops s [some (.between front back measured covar)] [(k, p)] rem =
      .error (.brokenTrajectory, s) := by
  simp only [update, if_pos hk, updateOdom, hempty, mapFind]

/-- C4 witness: a concrete odometry step (key `1`, not in the 'l' category)
against a freshly constructed solver is rejected with the trajectory error
and leaves the state untouched. -/
theorem C4_broken_trajectory_witness :
    update blackBoxOps (GenericSolver.init 2) [some (.between 0 1 ⟨7⟩ ⟨1⟩)]
      [(1, ⟨7⟩)] [] = .error (.brokenTrajectory, GenericSolver.init 2) :=
  C4_broken_trajectory blackBoxOps (GenericSolver.init 2) 0 1 ⟨7⟩ ⟨1⟩ 1 ⟨7⟩ []
    (by rfl) (by decide)

/-- C5: the claim says a loop closure whose endpoint keys are absent from
the odometry trajectory fails with UnknownNode and is rejected.  Evaluating
the code on such an input (closure between keys 5 and 9 against a solver
with an empty trajectory): the closure is ACCEPTED into `nfg_lc_`, and the
lookups default-construct trajectory entries for both missing keys instead
of failing. -/
theorem C5_unknown_node_accepted :
    ((update blackBoxOps (GenericSolver.init 1)
        [some (.between 5 9 ⟨3⟩ ⟨1⟩)] [] []).map fun s' =>
      (s'.nfg_lc_, s'.posesAndCovariances_odom_.trajectory_poses)) =
    .ok ([some (.between 5 9 ⟨3⟩ ⟨1⟩)],
         [(5, default), (9, default)]) := by
  rfl

/-! ### Optimizer gate, slot removal, lookup side effect -/

/-- C9: when the removal loop completes, the factor graph keeps its slot
count, every slot not listed for removal holds its previous factor, and
every listed slot has been reset to a null factor in place — no
reindexing. -/
theorem C9_removal_in_place (g g' : NonlinearFactorGraph) (rem : FactorIndices)
    (h : removeFactors g rem = .ok g') :
    g'.length = g.length ∧
    (∀ i, i ∉ rem → g'[i]? = g[i]?) ∧
    (∀ i ∈ rem, g'[i]? = some none) := by
  induction rem generalizing g with
  | nil =>
    simp only [removeFactors, Except.ok.injEq] at h
    subst h
    exact ⟨rfl, fun _ _ => rfl, by simp⟩
  | cons i rest ih =>
    rw [removeFactors] at h
    split at h
    case isTrue hlt =>
      obtain ⟨hlen, hother, hmem⟩ := ih _ h
      refine ⟨by simpa using hlen, ?_, ?_⟩
      · intro j hj
        have hji : i ≠ j := fun he => hj (by simp [he])
        have hjr : j ∉ rest := fun hr => hj (by simp [hr])
        rw [hother j hjr, List.getElem?_set_ne hji]
      · intro j hj
        rcases List.mem_cons.mp hj with he | hr
        · subst he
          by_cases hmem2 : j ∈ rest
          · exact hmem j hmem2
          · rw [hother j hmem2, List.getElem?_set_self hlt]
        · exact hmem j hr
    case isFalse => cases h

/-- C9 witness: removing slot 1 of a three-slot graph keeps three slots,
nulls slot 1 in place and leaves slots 0 and 2 untouched. -/
theorem C9_removal_in_place_witness :
    [some (Factor.other [0]), none, some (Factor.other [2])].length = 3 ∧
    removeFactors [some (.other [0]), some (.other [1]), some (.other [2])] [1] =
      .ok [some (.other [0]), none, some (.other [2])] ∧
    ([some (Factor.other [0]), none, some (Factor.other [2])] :
      NonlinearFactorGraph)[0]? = some (some (.other [0])) ∧
    ([some (Factor.other [0]), none, some (Factor.other [2])] :
      NonlinearFactorGraph)[1]? = some none := by
  have h := C9_removal_in_place
    [some (.other [0]), some (.other [1]), some (.other [2])]
    [some (.other [0]), none, some (.other [2])] [1] (by rfl)
  refine ⟨h.1, by rfl, ?_, h.2.2 1 (by decide)⟩
  rw [h.2.1 0 (by decide)]
  rfl

/-- C10: `isOdomConsistent` is not read-only — when an endpoint key is
absent from the odometry trajectory, the `operator[]` lookup inserts a
default-constructed entry for it, so the consistency query grows the
trajectory map. -/
theorem C10_lookup_grows_trajectory (ops : ExternalOps) (s : GenericSolver)
    (key_i key_j : Key) (measured : Pose3) (covar : Cov6)
    (habs : mapFind s.posesAndCovariances_odom_.trajectory_poses key_i = none) :
    mapFind (isOdomConsistent ops s key_i key_j measured
        covar).2.posesAndCovariances_odom_.trajectory_poses key_i = some default ∧
    s.posesAndCovariances_odom_.trajectory_poses.length <
      (isOdomConsistent ops s key_i key_j measured
        covar).2.posesAndCovariances_odom_.trajectory_poses.length := by
  have h1 : mapRead s.posesAndCovariances_odom_.trajectory_poses key_i =
      (default, mapInsert s.posesAndCovariances_odom_.trajectory_poses key_i default) := by
    simp [mapRead, habs]
  rw [isOdomConsistent_snd, h1]
  have hfind1 : mapFind
      (mapInsert s.posesAndCovariances_odom_.trajectory_poses key_i default) key_i =
      some default := mapFind_mapInsert_self _ _ _
  have hlen1 : (mapInsert s.posesAndCovariances_odom_.trajectory_poses key_i
      default).length = s.posesAndCovariances_odom_.trajectory_poses.length + 1 :=
    length_mapInsert_of_absent _ _ _ habs
  cases hj : mapFind
      (mapInsert s.posesAndCovariances_odom_.trajectory_poses key_i default) key_j with
  | some v =>
    simp only [mapRead, hj]
    exact ⟨hfind1, by omega⟩
  | none =>
    have hne : key_i ≠ key_j := by
      intro he
      subst he
      rw [hfind1] at hj
      cases hj
    simp only [mapRead, hj]
    constructor
    · rw [mapFind_mapInsert_ne _ _ _ _ hne]
      exact hfind1
    · have h2 := length_mapInsert_of_absent
        (mapInsert s.posesAndCovariances_odom_.trajectory_poses key_i default)
        key_j default hj
      omega

/-- C10 witness: querying consistency of a closure between the absent keys
5 and 9 against an empty trajectory leaves default entries behind. -/
theorem C10_lookup_grows_trajectory_witness :
    mapFind (isOdomConsistent blackBoxOps (GenericSolver.init 1) 5 9 ⟨3⟩
        ⟨1⟩).2.posesAndCovariances_odom_.trajectory_poses 5 = some default ∧
    (GenericSolver.init 1).posesAndCovariances_odom_.trajectory_poses.length <
      (isOdomConsistent blackBoxOps (GenericSolver.init 1) 5 9 ⟨3⟩
        ⟨1⟩).2.posesAndCovariances_odom_.trajectory_poses.length :=
  C10_lookup_grows_trajectory blackBoxOps (GenericSolver.init 1) 5 9 ⟨3⟩ ⟨1⟩ (by rfl)

/-! ### The odometry-trajectory invariant -/

/-- The keys of the odometry trajectory in map order. -/
def trajKeys (t : Trajectory) : List Key := t.trajectory_poses.map Prod.fst

/-- The odometry-trajectory invariant: keys strictly increasing, the start
key is the first entry and the end key is the most recently added (last)
entry. -/
def TrajInvariant (t : Trajectory) : Prop :=
  List.Chain' (fun a b => a < b) (trajKeys t) ∧
  (trajKeys t).head? = some t.start_id ∧
  (trajKeys t).getLast? = some t.end_id

/-- `initializePrior` on an uninitialized (empty) trajectory establishes
the invariant with `start_id = end_id =` the prior's key. -/
theorem initializePrior_establishes (s : GenericSolver) (k : Key) (p : Pose3)
    (c : Cov6)
    (hempty : s.posesAndCovariances_odom_.trajectory_poses = []) :
    TrajInvariant (initializePrior s k p c).posesAndCovariances_odom_ ∧
    (initializePrior s k p c).posesAndCovariances_odom_.start_id = k ∧
    (initializePrior s k p c).posesAndCovariances_odom_.end_id = k := by
  simp [initializePrior, mapSetPose, hempty, mapFind, mapInsert, TrajInvariant,
    trajKeys]

/-- `updateOdom` with a new key above every key already in the trajectory
preserves the invariant, leaves the start key alone and makes the new key
the end key. -/
theorem updateOdom_preserves (ops : ExternalOps) (s s' : GenericSolver)
    (delta : Pose3) (covar : Cov6) (new_key : Key) (np : PoseWithCovariance)
    (hinv : TrajInvariant s.posesAndCovariances_odom_)
    (hfresh : ∀ k' ∈ trajKeys s.posesAndCovariances_odom_, k' < new_key)
    (hok : updateOdom ops s delta covar new_key = .ok (s', np)) :
    TrajInvariant s'.posesAndCovariances_odom_ ∧
    s'.posesAndCovariances_odom_.start_id = s.posesAndCovariances_odom_.start_id ∧
    s'.posesAndCovariances_odom_.end_id = new_key := by
  obtain ⟨hchain, hhead, hlast⟩ := hinv
  simp only [trajKeys] at hchain hhead hlast hfresh
  cases hfind : mapFind s.posesAndCovariances_odom_.trajectory_poses
      s.posesAndCovariances_odom_.end_id with
  | none =>
    unfold updateOdom at hok
    simp [hfind] at hok
  | some tp =>
    unfold updateOdom at hok
    simp only [hfind, Except.ok.injEq, Prod.mk.injEq] at hok
    obtain ⟨hs, hnp⟩ := hok
    subst hs
    have hconcat := mapInsert_concat_of_forall_lt
      s.posesAndCovariances_odom_.trajectory_poses new_key
      { pose := ops.poseCompose tp.pose { pose := delta, covariance_matrix := covar }
        id := new_key } hfresh
    have hne : List.map Prod.fst s.posesAndCovariances_odom_.trajectory_poses ≠
        ([] : List Key) := by
      intro hnil
      rw [hnil] at hhead
      cases hhead
    have hendmem : s.posesAndCovariances_odom_.end_id ∈
        List.map Prod.fst s.posesAndCovariances_odom_.trajectory_poses := by
      obtain ⟨hne2, hxl⟩ := List.mem_getLast?_eq_getLast (Option.mem_def.mpr hlast)
      rw [hxl]
      exact List.getLast_mem hne2
    refine ⟨⟨?_, ?_, ?_⟩, rfl, rfl⟩
    · show List.Chain' _ (List.map Prod.fst (mapInsert _ _ _))
      rw [hconcat, List.map_append, List.chain'_append]
      refine ⟨hchain, by simp, ?_⟩
      intro x hx y hy
      simp only [List.map_cons, List.map_nil, List.head?_cons, Option.mem_def,
        Option.some.injEq] at hy
      subst hy
      rw [Option.mem_def, hlast, Option.some.injEq] at hx
      subst hx
      exact hfresh _ hendmem
    · show (List.map Prod.fst (mapInsert _ _ _)).head? = _
      rw [hconcat, List.map_append, List.head?_append_of_ne_nil _ hne]
      exact hhead
    · show (List.map Prod.fst (mapInsert _ _ _)).getLast? = _
      rw [hconcat, List.map_append]
      simp [List.getLast?_concat]

/-- C8: prior initialization on an empty trajectory establishes the
invariant with `start_id = end_id =` the prior's key, and every odometry
extension with a key above all existing keys (keys are created in strictly
increasing order) preserves it, making the new key the end key — the end
key always denotes the most recently added pose. -/
theorem C8_trajectory_invariant (ops : ExternalOps) (s0 s s' : GenericSolver)
    (k : Key) (p : Pose3) (c : Cov6) (delta : Pose3) (covar : Cov6)
    (new_key : Key) (np : PoseWithCovariance)
    (hempty : s0.posesAndCovariances_odom_.trajectory_poses = [])
    (hinv : TrajInvariant s.posesAndCovariances_odom_)
    (hfresh : ∀ k' ∈ trajKeys s.posesAndCovariances_odom_, k' < new_key)
    (hok : updateOdom ops s delta covar new_key = .ok (s', np)) :
    (TrajInvariant (initializePrior s0 k p c).posesAndCovariances_odom_ ∧
     (initializePrior s0 k p c).posesAndCovariances_odom_.start_id = k ∧
     (initializePrior s0 k p c).posesAndCovariances_odom_.end_id = k) ∧
    (TrajInvariant s'.posesAndCovariances_odom_ ∧
     s'.posesAndCovariances_odom_.start_id = s.posesAndCovariances_odom_.start_id ∧
     s'.posesAndCovariances_odom_.end_id = new_key) :=
  ⟨initializePrior_establishes s0 k p c hempty,
   updateOdom_preserves ops s s' delta covar new_key np hinv hfresh hok⟩

/-- The solver state reached by the C8 witness scenario: the trajectory
after a prior at key 0 and one odometry extension to key 1. -/
def c8WitnessState : GenericSolver :=
  { nfg_ := []
    values_ := []
    solver_type_ := 1
    nfg_odom_ := []
    nfg_lc_ := []
    posesAndCovariances_odom_ :=
      { trajectory_poses := [(0, ⟨⟨⟨5⟩, ⟨2⟩⟩, 0⟩), (1, ⟨⟨⟨5⟩, ⟨2⟩⟩, 1⟩)]
        start_id := 0
        end_id := 1 } }

/-- C8 witness: a concrete prior at key 0 followed by a concrete odometry
extension to key 1. -/
theorem C8_trajectory_invariant_witness :
    (TrajInvariant (initializePrior (GenericSolver.init 1) 0 ⟨5⟩
        ⟨2⟩).posesAndCovariances_odom_ ∧
     (initializePrior (GenericSolver.init 1) 0 ⟨5⟩
        ⟨2⟩).posesAndCovariances_odom_.start_id = 0 ∧
     (initializePrior (GenericSolver.init 1) 0 ⟨5⟩
        ⟨2⟩).posesAndCovariances_odom_.end_id = 0) ∧
    (TrajInvariant c8WitnessState.posesAndCovariances_odom_ ∧
     c8WitnessState.posesAndCovariances_odom_.start_id =
       (initializePrior (GenericSolver.init 1) 0 ⟨5⟩
         ⟨2⟩).posesAndCovariances_odom_.start_id ∧
     c8WitnessState.posesAndCovariances_odom_.end_id = 1) :=
  C8_trajectory_invariant blackBoxOps (GenericSolver.init 1)
    (initializePrior (GenericSolver.init 1) 0 ⟨5⟩ ⟨2⟩) c8WitnessState
    0 ⟨5⟩ ⟨2⟩ ⟨7⟩ ⟨1⟩ 1 ⟨⟨5⟩, ⟨2⟩⟩
    (by rfl)
    (by refine ⟨?_, by rfl, by rfl⟩
        simp [trajKeys, initializePrior, mapSetPose, mapFind, mapInsert,
          GenericSolver.init])
    (by decide) (by rfl)

/-! ### Error behaviour of the update entry point -/

theorem removeFactors_error_cases (g : NonlinearFactorGraph) (rem : FactorIndices)
    (e : SolverError) (g' : NonlinearFactorGraph)
    (h : removeFactors g rem = .error (e, g')) : e = .outOfRange ∧ rem ≠ [] := by
  induction rem generalizing g with
  | nil => simp [removeFactors] at h
  | cons i rest ih =>
    rw [removeFactors] at h
    split at h
    · exact ⟨(ih _ h).1, by simp⟩
    · simp only [Except.error.injEq, Prod.mk.injEq] at h
      exact ⟨h.1.symm, by simp⟩

theorem valuesInsert_error_cases (vs values : Values) (e : SolverError) (v' : Values)
    (h : valuesInsert vs values = .error (e, v')) : e = .keyExists := by
  induction values generalizing vs with
  | nil => simp [valuesInsert] at h
  | cons kv rest ih =>
    obtain ⟨k, p⟩ := kv
    rw [valuesInsert] at h
    split at h
    · simp only [Except.error.injEq, Prod.mk.injEq] at h
      exact h.1.symm
    · exact ih _ h

theorem valuesInsertOne_error_cases (vs : Values) (k : Key) (p : Pose3)
    (e : SolverError) (h : valuesInsertOne vs k p = .error e) : e = .keyExists := by
  unfold valuesInsertOne at h
  split at h
  · simp only [Except.error.injEq] at h
    exact h.symm
  · cases h

theorem regularUpdate_error_cases (ops : ExternalOps) (s : GenericSolver)
    (nfg : NonlinearFactorGraph) (values : Values) (rem : FactorIndices)
    (e : SolverError) (s' : GenericSolver)
    (h : regularUpdate ops s nfg values rem = .error (e, s')) :
    (e = .outOfRange ∧ rem ≠ []) ∨ e = .keyExists := by
  cases hrf : removeFactors s.nfg_ rem with
  | error p =>
    obtain ⟨e0, g0⟩ := p
    unfold regularUpdate at h
    simp only [hrf, Except.error.injEq, Prod.mk.injEq] at h
    obtain ⟨he, _⟩ := h
    subst he
    exact .inl (removeFactors_error_cases _ _ _ _ hrf)
  | ok g0 =>
    unfold regularUpdate at h
    simp only [hrf] at h
    cases hvi : valuesInsert ({ s with nfg_ := g0 ++ nfg } : GenericSolver).values_ values with
    | error p =>
      obtain ⟨e1, v1⟩ := p
      simp only [hvi, Except.error.injEq, Prod.mk.injEq] at h
      obtain ⟨he, _⟩ := h
      subst he
      exact .inr (valuesInsert_error_cases _ _ _ _ hvi)
    | ok v1 =>
      simp only [hvi] at h
      split at h
      · split at h
        · cases h
        · split at h
          · cases h
          · cases h
      · cases h

theorem updateOdom_error_cases (ops : ExternalOps) (s : GenericSolver)
    (delta : Pose3) (covar : Cov6) (new_key : Key)
    (e : SolverError) (s' : GenericSolver)
    (h : updateOdom ops s delta covar new_key = .error (e, s')) :
    e = .brokenTrajectory ∧
    mapFind s.posesAndCovariances_odom_.trajectory_poses
      s.posesAndCovariances_odom_.end_id = none := by
  cases hfind : mapFind s.posesAndCovariances_odom_.trajectory_poses
      s.posesAndCovariances_odom_.end_id with
  | none =>
    unfold updateOdom at h
    simp only [hfind, Except.error.injEq, Prod.mk.injEq] at h
    exact ⟨h.1.symm, rfl⟩
  | some tp =>
    unfold updateOdom at h
    simp [hfind] at h

/-- C3 (amended): `update` applies malformed input best-effort and lets no
error escape EXCEPT in these classes, where a C++ exception or a null
dereference escapes: a one-factor one-value odometry step when the
trajectory has no entry at its end key (in particular before
initialization); a one-factor update whose factor fails the
`dynamic_pointer_cast` it is unconditionally dereferenced through (a
non-Between non-Prior factor with one value on an empty trajectory, or a
non-Between factor with zero values); a removed-slot index out of range; or
inserting a value whose key is already present. -/
theorem C3_amended_error_classes (ops : ExternalOps) (s : GenericSolver)
    (nfg : NonlinearFactorGraph) (values : Values) (rem : FactorIndices)
    (e : SolverError) (s' : GenericSolver)
    (h : update ops s nfg values rem = .error (e, s')) :
    (e = .brokenTrajectory ∧ nfg.length = 1 ∧ values.length = 1 ∧
      mapFind s.posesAndCovariances_odom_.trajectory_poses
        s.posesAndCovariances_odom_.end_id = none) ∨
    (e = .badCast ∧ nfg.length = 1 ∧ values.length ≤ 1) ∨
    (e = .outOfRange ∧ rem ≠ []) ∨
    e = .keyExists := by
  have hreg : ∀ s0 : GenericSolver,
      regularUpdate ops s0 nfg values rem = .error (e, s') →
      (e = .brokenTrajectory ∧ nfg.length = 1 ∧ values.length = 1 ∧
        mapFind s.posesAndCovariances_odom_.trajectory_poses
          s.posesAndCovariances_odom_.end_id = none) ∨
      (e = .badCast ∧ nfg.length = 1 ∧ values.length ≤ 1) ∨
      (e = .outOfRange ∧ rem ≠ []) ∨
      e = .keyExists := by
    intro s0 h0
    rcases regularUpdate_error_cases ops s0 nfg values rem e s' h0 with h1 | h1
    · exact .inr (.inr (.inl h1))
    · exact .inr (.inr (.inr h1))
  rcases nfg with _ | ⟨f0, _ | ⟨f1, nrest⟩⟩
  · exact hreg s (by simpa only [update] using h)
  · rcases values with _ | ⟨⟨k, p⟩, _ | ⟨v1, vrest⟩⟩
    · -- one factor, zero values: the loop-closure classification
      rcases f0 with _ | fac
      · simp only [update, Except.error.injEq, Prod.mk.injEq] at h
        exact .inr (.inl ⟨h.1.symm, rfl, by simp⟩)
      · rcases fac with ⟨fr, ba, m, c⟩ | ⟨pk, pp, pc⟩ | ks
        · simp only [update, isOdomConsistent_fst, if_true] at h
          cases h
        · simp only [update, Except.error.injEq, Prod.mk.injEq] at h
          exact .inr (.inl ⟨h.1.symm, rfl, by simp⟩)
        · simp only [update, Except.error.injEq, Prod.mk.injEq] at h
          exact .inr (.inl ⟨h.1.symm, rfl, by simp⟩)
    · -- one factor, one value
      by_cases hk : keyChr k ≠ lChr
      · rcases f0 with _ | fac
        · simp only [update, if_pos hk] at h
          split at h
          · simp only [Except.error.injEq, Prod.mk.injEq] at h
            exact .inr (.inl ⟨h.1.symm, rfl, by simp⟩)
          · exact hreg s h
        · rcases fac with ⟨fr, ba, m, c⟩ | ⟨pk, pp, pc⟩ | ks
          · -- odometry branch
            cases hupd : updateOdom ops s m c ba with
            | error pr =>
              obtain ⟨e0, s0⟩ := pr
              simp only [update, if_pos hk, hupd, Except.error.injEq,
                Prod.mk.injEq] at h
              obtain ⟨he, _⟩ := h
              subst he
              obtain ⟨he0, hfind⟩ := updateOdom_error_cases ops s m c ba e0 s0 hupd
              exact .inl ⟨he0, rfl, rfl, hfind⟩
            | ok pr =>
              obtain ⟨s1, np⟩ := pr
              simp only [update, if_pos hk, hupd] at h
              cases hvo : valuesInsertOne s1.values_ k np.pose with
              | error e1 =>
                rw [hvo] at h
                simp only [Except.error.injEq, Prod.mk.injEq] at h
                obtain ⟨he, _⟩ := h
                subst he
                exact .inr (.inr (.inr (valuesInsertOne_error_cases _ _ _ _ hvo)))
              | ok v2 =>
                rw [hvo] at h
                cases h
          · -- prior branch
            simp only [update, if_pos hk] at h
            split at h
            · exact hreg _ h
            · exact hreg s h
          · -- other factor type
            simp only [update, if_pos hk] at h
            split at h
            · simp only [Except.error.injEq, Prod.mk.injEq] at h
              exact .inr (.inl ⟨h.1.symm, rfl, by simp⟩)
            · exact hreg s h
      · simp only [update, if_neg hk] at h
        exact hreg s h
    · exact hreg s (by simpa only [update] using h)
  · exact hreg s (by simpa only [update] using h)

/-- C3 (counterexample): a single-factor zero-value update whose factor is
not a `BetweenFactor<Pose3>` dereferences the failed cast: an error escapes
`update` (in the C++ code, a null-pointer dereference), contradicting
"never throws, only warns and best-effort applies". -/
theorem C3_counterexample :
    update blackBoxOps (GenericSolver.init 1) [some (.other [7])] [] [] =
      .error (.badCast, GenericSolver.init 1) := by
  rfl

/-- C3 witness for the amended theorem's hypothesis, at the concrete
failed-cast input. -/
theorem C3_amended_error_classes_witness :
    (SolverError.badCast = SolverError.brokenTrajectory ∧
      ([some (Factor.other [7])] : NonlinearFactorGraph).length = 1 ∧
      ([] : Values).length = 1 ∧
      mapFind (GenericSolver.init 1).posesAndCovariances_odom_.trajectory_poses
        (GenericSolver.init 1).posesAndCovariances_odom_.end_id = none) ∨
    (SolverError.badCast = SolverError.badCast ∧
      ([some (Factor.other [7])] : NonlinearFactorGraph).length = 1 ∧
      ([] : Values).length ≤ 1) ∨
    (SolverError.badCast = SolverError.outOfRange ∧ ([] : FactorIndices) ≠ []) ∨
    SolverError.badCast = SolverError.keyExists :=
  C3_amended_error_classes blackBoxOps (GenericSolver.init 1)
    [some (.other [7])] [] [] .badCast (GenericSolver.init 1) (by rfl)

/-! ### The optimizer gate and removal requests outside the generic path -/

/-- Black-box collaborators whose optimizers return recognizable marker
values, so that a concrete run shows whether an optimizer was invoked at
all (no theorem depends on this choice). -/
def markedOps : ExternalOps :=
  { poseCompose := fun a _ => a
    poseBetween := fun a _ => a
    optimizeLM := fun _ _ => [(99, ⟨99⟩)]
    optimizeGN := fun _ _ => [(98, ⟨98⟩)] }

/-- C7 (counterexample): a one-Between-factor one-value non-'l' update
carrying the non-empty removal list `[0]` (slot 0 exists: it holds the
prior factor) is classified as an odometry step: the returned graph still
has slot 0 occupied (the removal was dropped) and the returned Values are
the plain odometry append, not either optimizer's marker output — no
optimization ran although a factor slot was listed for removal. -/
theorem C7_counterexample :
    (do
      let s1 ← update markedOps (GenericSolver.init 1)
        [some (.priorF 0 ⟨5⟩ ⟨2⟩)] [(0, ⟨5⟩)] []
      let s2 ← update markedOps s1 [some (.between 0 1 ⟨7⟩ ⟨1⟩)] [(1, ⟨7⟩)] [0]
      pure (s2.nfg_, s2.values_) :
      Except (SolverError × GenericSolver) (NonlinearFactorGraph × Values)) =
    .ok ([some (.priorF 0 ⟨5⟩ ⟨2⟩)], [(0, ⟨5⟩), (1, ⟨5⟩)]) := by
  rfl

/-- C7 (amended): the optimizer gate of the generic path clears for a
one-factor one-value update whose value key is not in the 'l' category (in
particular a pure odometry step), clears for an update adding nothing, and
is forced on by any removed factor slot — but only on that generic path:
`update`'s classifier ignores `factorsToRemove`, so an update shaped like
an odometry step is dispatched to the odometry branch no matter what
removal list it carries, the removals are dropped without effect (the
combined graph `nfg_` is left exactly as it was) and no optimizer runs
(`values_` becomes the previous values plus the composed pose). -/
theorem C7_amended_gate (ops : ExternalOps) (s s1 : GenericSolver)
    (np : PoseWithCovariance) (v' : Values) (f : Option Factor)
    (front back k : Key) (m p : Pose3) (c : Cov6)
    (nfg : NonlinearFactorGraph) (values : Values) (rem : FactorIndices)
    (hk : keyChr k ≠ lChr) (hrem : rem ≠ [])
    (hupd : updateOdom ops s m c back = .ok (s1, np))
    (hvo : valuesInsertOne s1.values_ k np.pose = .ok v') :
    doOptimize [f] [(k, p)] [] = false ∧
    doOptimize [] [] [] = false ∧
    doOptimize nfg values rem = true ∧
    update ops s [some (.between front back m c)] [(k, p)] rem =
      .ok { s1 with
            nfg_odom_ := s1.nfg_odom_ ++ [some (.between front back m c)]
            values_ := v' } ∧
    s1.nfg_ = s.nfg_ ∧
    v' = s1.values_ ++ [(k, np.pose)] := by
  refine ⟨by simp [doOptimize, hk], by rfl, ?_, ?_, ?_, ?_⟩
  · have hpos : rem.length > 0 := List.length_pos.mpr hrem
    simp [doOptimize, hpos]
  · simp only [update, if_pos hk, hupd, hvo]
  · cases hfind : mapFind s.posesAndCovariances_odom_.trajectory_poses
        s.posesAndCovariances_odom_.end_id with
    | none =>
      unfold updateOdom at hupd
      simp [hfind] at hupd
    | some tp =>
      unfold updateOdom at hupd
      simp only [hfind, Except.ok.injEq, Prod.mk.injEq] at hupd
      obtain ⟨hs, _⟩ := hupd
      rw [← hs]
  · unfold valuesInsertOne at hvo
    split at hvo
    · cases hvo
    · simp only [Except.ok.injEq] at hvo
      exact hvo.symm

/-- C7 witness: concretely, after a prior at key 0, the odometry step to
key 1 carrying removal list `[0]` exercises every hypothesis of the
amended theorem. -/
theorem C7_amended_gate_witness :
    doOptimize [some (.between 0 1 ⟨7⟩ ⟨1⟩)] [(1, ⟨7⟩)] [] = false ∧
    doOptimize [] [] [] = false ∧
    doOptimize [] [] [0] = true ∧
    update blackBoxOps (initializePrior (GenericSolver.init 1) 0 ⟨5⟩ ⟨2⟩)
      [some (.between 0 1 ⟨7⟩ ⟨1⟩)] [(1, ⟨7⟩)] [0] =
      .ok { c8WitnessState with
            nfg_odom_ := c8WitnessState.nfg_odom_ ++ [some (.between 0 1 ⟨7⟩ ⟨1⟩)]
            values_ := [(1, ⟨5⟩)] } ∧
    c8WitnessState.nfg_ = (initializePrior (GenericSolver.init 1) 0 ⟨5⟩ ⟨2⟩).nfg_ ∧
    ([(1, ⟨5⟩)] : Values) = c8WitnessState.values_ ++ [(1, ⟨5⟩)] :=
  C7_amended_gate blackBoxOps (initializePrior (GenericSolver.init 1) 0 ⟨5⟩ ⟨2⟩)
    c8WitnessState ⟨⟨5⟩, ⟨2⟩⟩ [(1, ⟨5⟩)] (some (.between 0 1 ⟨7⟩ ⟨1⟩))
    0 1 1 ⟨7⟩ ⟨7⟩ ⟨1⟩ [] [] [0]
    (by decide) (by decide) (by rfl) (by rfl)
